import Mathlib

/-!
Verification of the Dice.com Apify actor (src/utils.ts, src/routes.ts) by a
shallow embedding in Lean 4.  JavaScript strings are modelled as `String` /
`List Char`, JavaScript numbers as `JsNum` (a rational or NaN), optional
values (`undefined`) as `Option`, and the external `Date` / locale built-ins
as an explicit environment record.
-/

namespace Dice

/-- The whitespace characters matched by the JavaScript regex class `\s`
(the common set: space, tab, newline, CR, vertical tab, form feed, NBSP,
line/paragraph separator, BOM). -/
def jsWhitespace (c : Char) : Bool :=
  c = ' ' || c = '\t' || c = '\n' || c = '\r' || c = Char.ofNat 11 ||
  c = Char.ofNat 12 || c = Char.ofNat 0xa0 || c = Char.ofNat 0x2028 ||
  c = Char.ofNat 0x2029 || c = Char.ofNat 0xfeff

/-- A JavaScript number: either NaN or an exact rational value. -/
inductive JsNum where
  | nan : JsNum
  | num (q : ℚ) : JsNum
  deriving DecidableEq, Repr

namespace JsNum

/-- JavaScript `<` comparison: any comparison with NaN is false. -/
def lt : JsNum → JsNum → Bool
  | num a, num b => Rat.blt a b
  | _, _ => false

/-- JavaScript multiplication by an integer constant (the only product the
source forms is `num *= 1000`); `mkRat (q.num * k) q.den` equals `q * k`. -/
def mulInt : JsNum → Int → JsNum
  | num a, k => num (mkRat (a.num * k) a.den)
  | nan, _ => nan

/-- JavaScript truthiness of a number: `0` and `NaN` are falsy. -/
def truthy : JsNum → Bool
  | nan => false
  | num q => q ≠ 0

end JsNum

/-- Truthiness of a JS string: only the empty string is falsy. -/
def strTruthy (s : String) : Bool := s ≠ ""

/-- JS `a || b` on strings. -/
def jsOrStr (a b : String) : String := if a = "" then b else a

/-- JS `a || b` where `a` is a possibly-undefined string and the result keeps
`b` as is (used for chains ending in an optional value). -/
def jsOrOptStr (a : Option String) (b : Option String) : Option String :=
  match a with
  | some s => if s = "" then b else some s
  | none => b

/-- `String.replace`-style global replacement of a literal pattern, as done
by the JS `/pat/g` regexes over a string source: scan left to right, replace
each non-overlapping occurrence, continue after the matched text. -/
def replaceAllStrGo (pat rep : List Char) : Nat → List Char → List Char
  | _, [] => []
  | 0, s => s
  | fuel + 1, c :: cs =>
    if pat ≠ [] ∧ pat.isPrefixOf (c :: cs) then
      rep ++ replaceAllStrGo pat rep fuel ((c :: cs).drop pat.length)
    else
      c :: replaceAllStrGo pat rep fuel cs

/-- Entry point: the fuel (one unit per character consumed, and each step
consumes at least one) never runs out. -/
def replaceAllStr (pat rep s : List Char) : List Char :=
  replaceAllStrGo pat rep s.length s

/-- JS `String.replace` with a string first argument: replaces only the first
occurrence (used for `.replace('Posted', '')` and `.replace('Location', '')`). -/
def replaceFirstStr (pat rep : List Char) : List Char → List Char
  | [] => []
  | c :: cs =>
    if pat ≠ [] ∧ pat.isPrefixOf (c :: cs) then
      rep ++ (c :: cs).drop pat.length
    else
      c :: replaceFirstStr pat rep cs

/-- Global replacement of the regex `<[^>]*>` by the empty string: each match
runs from a `<` to the first following `>`; a `<` with no later `>` is kept. -/
def stripTagsGo : Nat → List Char → List Char
  | _, [] => []
  | 0, s => s
  | fuel + 1, c :: cs =>
    if c = '<' ∧ cs.dropWhile (fun d => d ≠ '>') ≠ [] then
      stripTagsGo fuel (cs.dropWhile (fun d => d ≠ '>')).tail
    else c :: stripTagsGo fuel cs

/-- Entry point with enough fuel for the whole input. -/
def stripTags (s : List Char) : List Char := stripTagsGo s.length s

/-- Global replacement of the regex `\s+` by a single space: every maximal
run of whitespace collapses to one `' '`. -/
def collapseWsGo : Nat → List Char → List Char
  | _, [] => []
  | 0, s => s
  | fuel + 1, c :: cs =>
    if jsWhitespace c then
      ' ' :: collapseWsGo fuel (cs.dropWhile (fun d => jsWhitespace d))
    else c :: collapseWsGo fuel cs

/-- Entry point with enough fuel for the whole input. -/
def collapseWs (s : List Char) : List Char := collapseWsGo s.length s

/-- JS `String.trim`: strip leading and trailing whitespace. -/
def trimJs (l : List Char) : List Char :=
  ((l.dropWhile (fun c => jsWhitespace c)).reverse.dropWhile
    (fun c => jsWhitespace c)).reverse

/-- The body of `cleanText` from src/utils.ts on character lists: six entity
replacements in source order, tag stripping, whitespace collapsing, trim. -/
def cleanTextL (l : List Char) : List Char :=
  let t1 := replaceAllStr ("&nbsp;".data) (" ".data) l
  let t2 := replaceAllStr ("&amp;".data) ("&".data) t1
  let t3 := replaceAllStr ("&lt;".data) ("<".data) t2
  let t4 := replaceAllStr ("&gt;".data) (">".data) t3
  let t5 := replaceAllStr ("&quot;".data) ("\"".data) t4
  let t6 := replaceAllStr ("&#39;".data) ("'".data) t5
  trimJs (collapseWs (stripTags t6))

/-- `cleanText` from src/utils.ts: `if (!text) return ''` then the
entity/tag/whitespace pipeline. -/
def cleanText (s : String) : String :=
  if s = "" then "" else ⟨cleanTextL s.data⟩

/-!
A small backtracking regular-expression engine used to embed the JS regex
literals of utils.ts / routes.ts.  Alternatives are explored in JS priority
order (greedy quantifiers longest first, alternation left to right), so the
head of the result list is the match JS would report.
-/

/-- Regular expressions: empty, single character class, greedy star over a
character class, concatenation, prioritized alternation, capture group. -/
inductive Rx where
  | emp : Rx
  | chrP (p : Char → Bool) : Rx
  | starP (p : Char → Bool) : Rx
  | cat (a b : Rx) : Rx
  | alt (a b : Rx) : Rx
  | grp (i : Nat) (a : Rx) : Rx

/-- Capture list: group index paired with captured text. -/
abbrev Caps := List (Nat × List Char)

/-- All ways a regex can match a prefix of `s`, highest JS priority first;
each result is the remaining suffix and the captures made. -/
def Rx.run : Rx → List Char → List (List Char × Caps)
  | .emp, s => [(s, [])]
  | .chrP p, s =>
    match s with
    | [] => []
    | c :: cs => if p c then [(cs, [])] else []
  | .starP p, s =>
    let k := (s.takeWhile p).length
    (List.range (k + 1)).map (fun i => (s.drop (k - i), []))
  | .cat a b, s =>
    (Rx.run a s).flatMap (fun r1 =>
      (Rx.run b r1.1).map (fun r2 => (r2.1, r1.2 ++ r2.2)))
  | .alt a b, s => Rx.run a s ++ Rx.run b s
  | .grp i a, s =>
    (Rx.run a s).map (fun r => (r.1, (i, s.take (s.length - r.1.length)) :: r.2))

/-- `String.match` without the global flag: the captures of the leftmost
match (trying every start position left to right). -/
def firstMatch (r : Rx) : List Char → Option Caps
  | [] =>
    match (Rx.run r []).head? with
    | some res => some res.2
    | none => none
  | c :: cs =>
    match (Rx.run r (c :: cs)).head? with
    | some res => some res.2
    | none => firstMatch r cs

/-- Look up a capture group's text in a capture list. -/
def capGet (cs : Caps) (i : Nat) : Option (List Char) :=
  (cs.find? (fun x => x.1 = i)).map (fun x => x.2)

/-- Greedy `?` on a regex. -/
def optR (a : Rx) : Rx := Rx.alt a Rx.emp

/-- Greedy `+` over a character class. -/
def plusP (p : Char → Bool) : Rx := Rx.cat (Rx.chrP p) (Rx.starP p)

/-- Greedy `{0,2}` over a character class. -/
def upTo2 (p : Char → Bool) : Rx :=
  Rx.alt (Rx.cat (Rx.chrP p) (Rx.chrP p)) (Rx.alt (Rx.chrP p) Rx.emp)

/-- A case-sensitive literal string as a regex. -/
def litStr (s : String) : Rx :=
  s.data.foldr (fun c acc => Rx.cat (Rx.chrP (fun d => d = c)) acc) Rx.emp

/-- A case-insensitive literal string as a regex (the `/i` flag; ASCII simple
folding, which covers every literal in the source). -/
def ciStr (s : String) : Rx :=
  s.data.foldr (fun c acc => Rx.cat (Rx.chrP (fun d => d.toLower = c.toLower)) acc) Rx.emp

/-- Left-to-right alternation of a list of regexes (JS `a|b|c`). -/
def altList : List Rx → Rx
  | [] => Rx.chrP (fun _ => false)
  | [r] => r
  | r :: rs => Rx.alt r (altList rs)

/-- The class `[\d,]`. -/
def digComma (c : Char) : Bool := c.isDigit || c = ','

/-- The class `[kK]`. -/
def kUpLo (c : Char) : Bool := c = 'k' || c = 'K'

/-- The class `[-–to]` (hyphen, en dash U+2013, `t`, `o`). -/
def dashToCls (c : Char) : Bool :=
  c = '-' || c = Char.ofNat 0x2013 || c = 't' || c = 'o'

/-- `\s*` as a regex. -/
def wsStar : Rx := Rx.starP jsWhitespace

/-- The number token `[\d,]+(?:\.?\d{0,2})?` of parseSalaryFromText. -/
def numPat : Rx :=
  Rx.cat (plusP digComma)
    (optR (Rx.cat (optR (Rx.chrP (fun c => c = '.'))) (upTo2 Char.isDigit)))

/-- The range regex `\$?([\d,]+(?:\.?\d{0,2})?)\s*[kK]?\s*[-–to]+\s*\$?([\d,]+(?:\.?\d{0,2})?)\s*[kK]?`. -/
def rangeRx : Rx :=
  Rx.cat (optR (Rx.chrP (fun c => c = '$')))
    (Rx.cat (Rx.grp 1 numPat)
      (Rx.cat wsStar
        (Rx.cat (optR (Rx.chrP kUpLo))
          (Rx.cat wsStar
            (Rx.cat (plusP dashToCls)
              (Rx.cat wsStar
                (Rx.cat (optR (Rx.chrP (fun c => c = '$')))
                  (Rx.cat (Rx.grp 2 numPat)
                    (Rx.cat wsStar (optR (Rx.chrP kUpLo)))))))))))

/-- The single-value regex `\$?([\d,]+(?:\.?\d{0,2})?)\s*[kK]?`. -/
def singleRx : Rx :=
  Rx.cat (optR (Rx.chrP (fun c => c = '$')))
    (Rx.cat (Rx.grp 1 numPat)
      (Rx.cat wsStar (optR (Rx.chrP kUpLo))))

/-- The period regex `\/(hour|hr|year|yr|month|mo|week|wk|day)/i`. -/
def periodRx : Rx :=
  Rx.cat (Rx.chrP (fun c => c = '/'))
    (Rx.grp 1 (altList
      [ciStr "hour", ciStr "hr", ciStr "year", ciStr "yr", ciStr "month",
       ciStr "mo", ciStr "week", ciStr "wk", ciStr "day"]))

/-- Model of the JS `parseFloat` builtin on the comma-stripped capture text
(which only ever holds digits and at most one dot, so the sign/exponent
syntax never fires): leading whitespace skipped, optional sign, integer
digits, optional fraction; NaN when no digit is found. -/
def parseFloatJs (l : List Char) : JsNum :=
  let l1 := l.dropWhile jsWhitespace
  let sgn : Int × List Char :=
    match l1 with
    | '-' :: r => (-1, r)
    | '+' :: r => (1, r)
    | _ => (1, l1)
  let ip := sgn.2.takeWhile Char.isDigit
  let r1 := sgn.2.drop ip.length
  let fp :=
    match r1 with
    | '.' :: r => r.takeWhile Char.isDigit
    | _ => []
  if ip = [] ∧ fp = [] then JsNum.nan
  else
    let ipn : Nat := ip.foldl (fun a c => a * 10 + (c.toNat - 48)) 0
    let fpn : Nat := fp.foldl (fun a c => a * 10 + (c.toNat - 48)) 0
    let den : Nat := Nat.pow 10 fp.length
    JsNum.num (mkRat (sgn.1 * (ipn * den + fpn)) den)

/-- The inner `parseValue` helper of parseSalaryFromText: strip commas,
`parseFloat`, then multiply by 1000 when the raw capture contains `k`/`K`
or the value is below 1000 with no period marker in the input. -/
def parseValue (val : List Char) (hasPeriod : Bool) : JsNum :=
  let cleaned := val.filter (fun c => c ≠ ',')
  let num := parseFloatJs cleaned
  if val.any (fun c => c.toLower = 'k') || (JsNum.lt num (JsNum.num 1000) && !hasPeriod) then
    num.mulInt 1000
  else num

/-- The record returned by parseSalaryFromText (the code always fills all
four fields when it returns an object). -/
structure SalaryParse where
  min : JsNum
  max : JsNum
  currency : String
  period : String
  deriving DecidableEq, Repr

/-- `parseSalaryFromText` from src/utils.ts. -/
def parseSalaryFromText (text : String) : Option SalaryParse :=
  if text = "" then none
  else
    let s := text.data
    let rangeM := firstMatch rangeRx s
    let singleM := firstMatch singleRx s
    let periodM := firstMatch periodRx s
    let hasPeriod := periodM.isSome
    let period : String :=
      match periodM with
      | some caps =>
        match capGet caps 1 with
        | some p => (⟨p.map Char.toLower⟩ : String)
        | none => "year"
      | none => "year"
    match rangeM with
    | some caps =>
      some { min := parseValue ((capGet caps 1).getD []) hasPeriod,
             max := parseValue ((capGet caps 2).getD []) hasPeriod,
             currency := "USD", period := period }
    | none =>
      match singleM with
      | some caps =>
        let v := parseValue ((capGet caps 1).getD []) hasPeriod
        some { min := v, max := v, currency := "USD", period := period }
      | none => none

/-!  Date handling.  `new Date(string)`, `Date.now()` and
`toLocaleDateString` are external builtins; they are modelled by an explicit
environment: `parseDateMs s = some t` means the string parses to epoch
milliseconds `t`, `none` means an Invalid Date. -/

/-- Environment supplying the external `Date` and locale builtins. -/
structure JsDateEnv where
  parseDateMs : String → Option Int
  nowMs : Int
  locDateValid : Int → String
  nowIso : String

/-- `formatPostedDate` from src/utils.ts.  For an unparseable (non-empty)
string `new Date` yields an Invalid Date without throwing, every NaN
comparison is false, and the final `toLocaleDateString` branch renders the
fixed string "Invalid Date"; the `catch` branch of the source is
unreachable. -/
def formatPostedDate (env : JsDateEnv) (dateString : String) : String :=
  if dateString = "" then "Unknown"
  else
    match env.parseDateMs dateString with
    | some t =>
      let diffMs : Int := env.nowMs - t
      let diffDays : Int := Int.fdiv diffMs 86400000
      if diffDays = 0 then "Today"
      else if diffDays = 1 then "Yesterday"
      else if diffDays < 7 then toString diffDays ++ " days ago"
      else if diffDays < 30 then
        let weeks := Int.fdiv diffDays 7
        toString weeks ++ " week" ++ (if weeks > 1 then "s" else "") ++ " ago"
      else env.locDateValid t
    | none => "Invalid Date"

/-- Truthiness of an optional JS number (`undefined`, `0` and `NaN` falsy). -/
def truthyOptNum (o : Option JsNum) : Bool :=
  match o with
  | some n => n.truthy
  | none => false

/-- Truthiness of an optional JS string (`undefined` and `""` falsy). -/
def truthyOptStr (o : Option String) : Bool :=
  match o with
  | some s => s ≠ ""
  | none => false

/-- Digit grouping with commas every three digits (en-US), fuel-structural. -/
def commaGroupGo : Nat → Nat → String
  | 0, n => toString n
  | fuel + 1, n =>
    if n < 1000 then toString n
    else
      let rest := n % 1000
      let pad :=
        if rest < 10 then "00" ++ toString rest
        else if rest < 100 then "0" ++ toString rest
        else toString rest
      commaGroupGo fuel (n / 1000) ++ "," ++ pad

/-- Digit grouping with commas every three digits (en-US). -/
def commaGroup (n : Nat) : String := commaGroupGo n n

/-- Model of the external `Intl.NumberFormat('en-US', { style: 'currency',
currency, maximumFractionDigits: 0 })` formatter: a currency marker followed
by the rounded, comma-grouped value. -/
def intlCurrencyFmt (currency : String) (v : JsNum) : String :=
  let sym := if currency = "USD" then "$" else currency ++ " "
  match v with
  | .nan => sym ++ "NaN"
  | .num q =>
    let n : Int := Int.fdiv (2 * q.num + q.den) (2 * q.den)
    (if n < 0 then "-" else "") ++ sym ++ commaGroup n.natAbs

/-- The `salaryEstimate` shape consumed by formatSalary / parseJobFromApi. -/
structure SalaryEstimate where
  minValue : Option JsNum := none
  maxValue : Option JsNum := none
  currency : Option String := none
  unitText : Option String := none
  deriving DecidableEq, Repr

/-- `formatSalary` from src/utils.ts. -/
def formatSalary (estimate : Option SalaryEstimate) : Option String :=
  match estimate with
  | none => none
  | some e =>
    if ¬ truthyOptNum e.minValue ∧ ¬ truthyOptNum e.maxValue then none
    else
      let currency :=
        match e.currency with
        | some c => if c = "" then "USD" else c
        | none => "USD"
      let minS : Option String :=
        if truthyOptNum e.minValue then
          some (intlCurrencyFmt currency (e.minValue.getD (JsNum.num 0)))
        else none
      let maxS : Option String :=
        if truthyOptNum e.maxValue then
          some (intlCurrencyFmt currency (e.maxValue.getD (JsNum.num 0)))
        else none
      let period :=
        match e.unitText with
        | some u => if u = "" then "" else "/" ++ (⟨u.data.map Char.toLower⟩ : String)
        | none => ""
      match minS, maxS with
      | some a, some b => some (a ++ " - " ++ b ++ period)
      | some a, none => some (a ++ period)
      | none, some b => some (b ++ period)
      | none, none => some ("null" ++ period)

/-- `DICE_BASE_URL` from src/constants.ts. -/
def DICE_BASE_URL : String := "https://www.dice.com"

/-- `DICE_API_URL` from src/constants.ts. -/
def DICE_API_URL : String :=
  "https://job-search-api.svc.dhigroupinc.com/v1/dice/jobs/search"

/-- The job-id regex `\/job-detail\/([a-f0-9-]+)/i` character class. -/
def jobIdCls (c : Char) : Bool :=
  (('a' ≤ c.toLower && c.toLower ≤ 'f') || c.isDigit || c = '-')

/-- The regex of extractJobIdFromUrl. -/
def jobDetailRx : Rx := Rx.cat (ciStr "/job-detail/") (Rx.grp 1 (plusP jobIdCls))

/-- `extractJobIdFromUrl` from src/utils.ts. -/
def extractJobIdFromUrl (url : String) : Option String :=
  match firstMatch jobDetailRx url.data with
  | some caps => (capGet caps 1).map (fun l => (⟨l⟩ : String))
  | none => none

/-! `extractSkills`: a fixed bank of `\b(word|…)\b` regexes applied with the
global, case-insensitive flags.  A JS word boundary `\b` holds between two
positions of different `\w`-ness (out of range counts as non-word). -/

/-- JS `\w`: ASCII letters, digits, underscore. -/
def isWordCh (c : Char) : Bool := c.isAlphanum || c = '_'

/-- `\w`-ness of an optional character (out of range = non-word). -/
def wordishO (o : Option Char) : Bool :=
  match o with
  | some c => isWordCh c
  | none => false

/-- Case-insensitive literal match of `w` against a prefix of `s`. -/
def ciIsMatch : List Char → List Char → Bool
  | [], _ => true
  | _ :: _, [] => false
  | c :: wr, d :: sr => d.toLower = c.toLower && ciIsMatch wr sr

/-- Try the alternatives of one skill pattern, in source order, at the
current position; a hit must also satisfy the trailing `\b`.  Returns the
matched text (original case) and its length. -/
def tryAlts (alts : List (List Char)) (s : List Char) : Option (List Char × Nat) :=
  match alts with
  | [] => none
  | w :: ws =>
    if w ≠ [] ∧ ciIsMatch w s ∧
        wordishO (s.take w.length).getLast? ≠ wordishO (s.drop w.length).head? then
      some (s.take w.length, w.length)
    else tryAlts ws s

/-- Scan one `\b(…)\b/gi` pattern over the text, JS `match` with the global
flag: non-overlapping leftmost matches in order.  `prev` is the character
before the current position (for the leading `\b`; every alternative starts
with a word character). -/
def scanSkillsGo (alts : List (List Char)) : Nat → Option Char → List Char → List (List Char)
  | _, _, [] => []
  | 0, _, _ => []
  | fuel + 1, prev, c :: cs =>
    if ¬ wordishO prev then
      match tryAlts alts (c :: cs) with
      | some (m, n) =>
        if 1 ≤ n then
          m :: scanSkillsGo alts fuel m.getLast? ((c :: cs).drop n)
        else scanSkillsGo alts fuel (some c) cs
      | none => scanSkillsGo alts fuel (some c) cs
    else scanSkillsGo alts fuel (some c) cs

/-- Entry point with enough fuel for the whole input. -/
def scanSkillsP (alts : List (List Char)) (prev : Option Char) (s : List Char) :
    List (List Char) :=
  scanSkillsGo alts s.length prev s

/-- The six skill regex alternation banks of src/utils.ts, in source order. -/
def skillBank : List (List (List Char)) :=
  [["JavaScript", "TypeScript", "Python", "Java", "C++", "C#", "Ruby", "Go",
    "Rust", "Swift", "Kotlin", "PHP", "Scala", "R"],
   ["React", "Angular", "Vue", "Node.js", "Express", "Django", "Flask",
    "Spring", "Rails", "Laravel"],
   ["AWS", "Azure", "GCP", "Docker", "Kubernetes", "Jenkins", "Git", "CI/CD",
    "DevOps"],
   ["SQL", "MySQL", "PostgreSQL", "MongoDB", "Redis", "Elasticsearch",
    "GraphQL", "REST", "API"],
   ["Machine Learning", "ML", "AI", "Data Science", "Deep Learning", "NLP",
    "TensorFlow", "PyTorch"],
   ["Agile", "Scrum", "Jira", "Confluence", "Slack", "Teams"]].map
    (fun l => l.map String.data)

/-- `extractSkills` from src/utils.ts: all matches of each pattern in order,
deduplicated by a Set preserving insertion order. -/
def extractSkills (text : String) : List String :=
  let allMatches :=
    (skillBank.map (fun alts =>
      (scanSkillsP alts none text.data).map (fun m => (⟨m⟩ : String)))).flatten
  allMatches.foldl (fun acc s => if acc.contains s then acc else acc ++ [s]) []

/-! `extractExperienceLevel` / `extractEducationLevel` regex patterns. -/

/-- `\s+` as a regex. -/
def wsPlus : Rx := plusP jsWhitespace

/-- A case-insensitive single character. -/
def ciChr (c : Char) : Rx := Rx.chrP (fun d => d.toLower = c)

/-- The class `[\s-]`. -/
def wsDash (c : Char) : Bool := jsWhitespace c || c = '-'

/-- `/(\d+\+?\s*(?:years?|yrs?)(?:\s+of)?\s+experience)/i`. -/
def expRx1 : Rx :=
  Rx.grp 1 (Rx.cat (plusP Char.isDigit)
    (Rx.cat (optR (Rx.chrP (fun c => c = '+')))
      (Rx.cat wsStar
        (Rx.cat (Rx.alt (Rx.cat (ciStr "year") (optR (ciChr 's')))
                        (Rx.cat (ciStr "yr") (optR (ciChr 's'))))
          (Rx.cat (optR (Rx.cat wsPlus (ciStr "of")))
            (Rx.cat wsPlus (ciStr "experience")))))))

/-- `/(entry[\s-]?level|junior|mid[\s-]?level|senior|lead|principal|staff)/i`. -/
def expRx2 : Rx :=
  Rx.grp 1 (altList
    [Rx.cat (ciStr "entry") (Rx.cat (optR (Rx.chrP wsDash)) (ciStr "level")),
     ciStr "junior",
     Rx.cat (ciStr "mid") (Rx.cat (optR (Rx.chrP wsDash)) (ciStr "level")),
     ciStr "senior", ciStr "lead", ciStr "principal", ciStr "staff"])

/-- `/(associate|intern|executive|director|manager)/i`. -/
def expRx3 : Rx :=
  Rx.grp 1 (altList
    [ciStr "associate", ciStr "intern", ciStr "executive", ciStr "director",
     ciStr "manager"])

/-- `extractExperienceLevel` from src/routes.ts: first pattern that matches,
returning capture group 1. -/
def extractExperienceLevel (text : String) : Option String :=
  match firstMatch expRx1 text.data with
  | some caps => (capGet caps 1).map (fun l => (⟨l⟩ : String))
  | none =>
    match firstMatch expRx2 text.data with
    | some caps => (capGet caps 1).map (fun l => (⟨l⟩ : String))
    | none =>
      match firstMatch expRx3 text.data with
      | some caps => (capGet caps 1).map (fun l => (⟨l⟩ : String))
      | none => none

/-- The apostrophe character. -/
def apos : Char := Char.ofNat 39

/-- `/(bachelor'?s?|master'?s?|ph\.?d\.?|doctorate|associate'?s?)\s*(degree)?/i`,
wrapped in group 0 because the source returns `match[0]`. -/
def eduRx1 : Rx :=
  Rx.grp 0 (Rx.cat
    (Rx.grp 1 (altList
      [Rx.cat (ciStr "bachelor") (Rx.cat (optR (Rx.chrP (fun c => c = apos)))
        (optR (ciChr 's'))),
       Rx.cat (ciStr "master") (Rx.cat (optR (Rx.chrP (fun c => c = apos)))
        (optR (ciChr 's'))),
       Rx.cat (ciStr "ph") (Rx.cat (optR (Rx.chrP (fun c => c = '.')))
        (Rx.cat (ciChr 'd') (optR (Rx.chrP (fun c => c = '.'))))),
       ciStr "doctorate",
       Rx.cat (ciStr "associate") (Rx.cat (optR (Rx.chrP (fun c => c = apos)))
        (optR (ciChr 's')))]))
    (Rx.cat wsStar (optR (Rx.grp 2 (ciStr "degree")))))

/-- `/(high school|ged|diploma)/i` wrapped in group 0. -/
def eduRx2 : Rx :=
  Rx.grp 0 (Rx.grp 1 (altList [ciStr "high school", ciStr "ged", ciStr "diploma"]))

/-- `/(bs|ba|ms|ma|mba|phd)\s+(?:in|degree)/i` wrapped in group 0. -/
def eduRx3 : Rx :=
  Rx.grp 0 (Rx.cat
    (Rx.grp 1 (altList
      [ciStr "bs", ciStr "ba", ciStr "ms", ciStr "ma", ciStr "mba", ciStr "phd"]))
    (Rx.cat wsPlus (Rx.alt (ciStr "in") (ciStr "degree"))))

/-- `extractEducationLevel` from src/routes.ts: first pattern that matches,
returning the whole match `match[0]`. -/
def extractEducationLevel (text : String) : Option String :=
  match firstMatch eduRx1 text.data with
  | some caps => (capGet caps 0).map (fun l => (⟨l⟩ : String))
  | none =>
    match firstMatch eduRx2 text.data with
    | some caps => (capGet caps 0).map (fun l => (⟨l⟩ : String))
    | none =>
      match firstMatch eduRx3 text.data with
      | some caps => (capGet caps 0).map (fun l => (⟨l⟩ : String))
      | none => none

/-! Data model (src/types.ts). -/

/-- The `jobLocation` sub-object of an API job. -/
structure DiceJobLocation where
  displayName : String := ""
  deriving DecidableEq, Repr

/-- One job of the API search response (`DiceSearchJob`, the fields read by
parseJobFromApi). -/
structure DiceSearchJob where
  id : String := ""
  title : String := ""
  companyName : String := ""
  companyId : Option String := none
  summary : Option String := none
  jobLocation : DiceJobLocation := {}
  salary : Option String := none
  salaryEstimate : Option SalaryEstimate := none
  employmentType : Option String := none
  workFromHomeAvailability : Option String := none
  postedDate : String := ""
  detailsPageUrl : String := ""
  easyApply : Option Bool := none
  isRemote : Option Bool := none
  guid : Option String := none
  deriving DecidableEq, Repr

/-- `JobListingBasic` from src/types.ts (`Option` = possibly `undefined`). -/
structure JobListingBasic where
  id : String
  title : String := ""
  company : String := ""
  companyId : Option String := none
  location : String := ""
  salary : Option String := none
  salaryMin : Option JsNum := none
  salaryMax : Option JsNum := none
  salaryCurrency : Option String := none
  salaryPeriod : Option String := none
  jobType : Option String := none
  employmentType : Option String := none
  workplaceType : Option String := none
  postedDate : String := ""
  postedDateTimestamp : Option JsNum := none
  url : String
  easyApply : Option Bool := none
  summary : Option String := none
  deriving DecidableEq, Repr

/-- `JobListingFull` as built by extractJobDetails (every field the object
literal of src/routes.ts assigns). -/
structure JobListingFull where
  id : String
  title : String
  company : String
  companyId : Option String
  location : String
  salary : Option String
  salaryMin : Option JsNum
  salaryMax : Option JsNum
  salaryCurrency : String
  salaryPeriod : Option String
  jobType : Option String
  employmentType : Option String
  workplaceType : Option String
  postedDate : String
  postedDateTimestamp : Option JsNum
  url : String
  easyApply : Option Bool
  summary : Option String
  description : String
  descriptionHtml : Option String
  skills : Option (List String)
  experienceLevel : Option String
  educationLevel : Option String
  benefits : Option (List String)
  companyDescription : Option String
  companyLogo : Option String
  applicationUrl : Option String
  scrapedAt : String
  deriving DecidableEq, Repr

/-- `parseJobFromApi` from src/utils.ts. -/
def parseJobFromApi (env : JsDateEnv) (job : DiceSearchJob) : JobListingBasic :=
  let jobUrl :=
    if "http".data.isPrefixOf job.detailsPageUrl.data then job.detailsPageUrl
    else DICE_BASE_URL ++ job.detailsPageUrl
  { id := jsOrStr job.id (jsOrStr (job.guid.getD "") ""),
    title := cleanText job.title,
    company := cleanText job.companyName,
    companyId := job.companyId,
    location := cleanText job.jobLocation.displayName,
    salary := jsOrOptStr job.salary (formatSalary job.salaryEstimate),
    salaryMin := job.salaryEstimate.bind (fun e => e.minValue),
    salaryMax := job.salaryEstimate.bind (fun e => e.maxValue),
    salaryCurrency := job.salaryEstimate.bind (fun e => e.currency),
    salaryPeriod := job.salaryEstimate.bind (fun e => e.unitText),
    jobType := none,
    employmentType := job.employmentType,
    workplaceType := jsOrOptStr job.workFromHomeAvailability
      (if job.isRemote.getD false then some "Remote" else none),
    postedDate := formatPostedDate env job.postedDate,
    postedDateTimestamp :=
      if job.postedDate = "" then none
      else some (match env.parseDateMs job.postedDate with
        | some t => JsNum.num t
        | none => JsNum.nan),
    url := jobUrl,
    easyApply := job.easyApply,
    summary := some (cleanText (job.summary.getD "")) }

/-- The values the document-query layer returns on a job detail page: the
text / html / attribute results of each selector of extractJobDetails.  An
all-default value models a page where every selector misses. -/
structure DetailDoc where
  jobTitleText : String := ""
  h1Text : String := ""
  companyText : String := ""
  locationText : String := ""
  locationLiText : String := ""
  salaryText : String := ""
  jobTypeText : String := ""
  workFromHomeText : String := ""
  postedDateText : String := ""
  descriptionHtmlStr : String := ""
  descriptionText : String := ""
  skillTexts : List String := []
  benefitTexts : List String := []
  experienceText : String := ""
  educationText : String := ""
  companyDescText : String := ""
  companyLogoSrc : Option String := none
  easyApplyBadgeCount : Nat := 0
  applyHref : Option String := none
  deriving DecidableEq, Repr

/-- JS `a || b` where `a` is an optional JS number. -/
def jsOrOptNum (a b : Option JsNum) : Option JsNum :=
  if truthyOptNum a then a else b

/-- `extractJobDetails` from src/routes.ts. -/
def extractJobDetails (doc : DetailDoc) (jobBasic : Option JobListingBasic)
    (url : String) (env : JsDateEnv) : JobListingFull :=
  let title := jsOrStr (cleanText doc.jobTitleText)
    (jsOrStr (cleanText doc.h1Text)
      (jsOrStr ((jobBasic.map (fun b => b.title)).getD "") "Unknown Title"))
  let company := jsOrStr (cleanText doc.companyText)
    (jsOrStr ((jobBasic.map (fun b => b.company)).getD "") "Unknown Company")
  let location := jsOrStr (cleanText doc.locationText)
    (jsOrStr (cleanText ⟨replaceFirstStr ("Location".data) [] doc.locationLiText.data⟩)
      (jsOrStr ((jobBasic.map (fun b => b.location)).getD "") "Unknown Location"))
  let salary : Option String :=
    jsOrOptStr (some (cleanText doc.salaryText)) (jobBasic.bind (fun b => b.salary))
  let salaryData := parseSalaryFromText (salary.getD "")
  let jobType : Option String :=
    jsOrOptStr (some (cleanText doc.jobTypeText)) (jobBasic.bind (fun b => b.jobType))
  let workplaceType : Option String :=
    jsOrOptStr (some (cleanText doc.workFromHomeText))
      (jobBasic.bind (fun b => b.workplaceType))
  let postedDate := jsOrStr
    (cleanText ⟨trimJs (replaceFirstStr ("Posted".data) [] doc.postedDateText.data)⟩)
    (jsOrStr ((jobBasic.map (fun b => b.postedDate)).getD "") "Unknown")
  let descriptionHtml := doc.descriptionHtmlStr
  let description := cleanText doc.descriptionText
  let skills0 := doc.skillTexts.foldl
    (fun acc t =>
      let sk := cleanText t
      if sk ≠ "" ∧ ¬ acc.contains sk then acc ++ [sk] else acc) []
  let skills1 := (extractSkills description).foldl
    (fun acc sk => if ¬ acc.contains sk then acc ++ [sk] else acc) skills0
  let experienceLevel : Option String :=
    let e := if cleanText doc.experienceText ≠ "" then some (cleanText doc.experienceText)
      else extractExperienceLevel description
    match e with
    | some s => if s = "" then none else some s
    | none => none
  let educationLevel : Option String :=
    let e := if cleanText doc.educationText ≠ "" then some (cleanText doc.educationText)
      else extractEducationLevel description
    match e with
    | some s => if s = "" then none else some s
    | none => none
  let benefits := doc.benefitTexts.foldl
    (fun acc t =>
      let b := cleanText t
      if b ≠ "" then acc ++ [b] else acc) []
  let companyDescription :=
    let c := cleanText doc.companyDescText
    if c = "" then none else some c
  let companyLogo :=
    match doc.companyLogoSrc with
    | some s => if s = "" then none else some s
    | none => none
  let easyApply : Option Bool :=
    if doc.easyApplyBadgeCount > 0 then some true
    else jobBasic.bind (fun b => b.easyApply)
  let applicationUrl :=
    match doc.applyHref with
    | some s => if s = "" then none else some s
    | none => none
  { id := jsOrStr ((jobBasic.map (fun b => b.id)).getD "")
      (jsOrStr ((extractJobIdFromUrl url).getD "") ("job-" ++ toString env.nowMs)),
    title := title,
    company := company,
    companyId := jobBasic.bind (fun b => b.companyId),
    location := location,
    salary := salary,
    salaryMin := jsOrOptNum (salaryData.map (fun d => d.min))
      (jobBasic.bind (fun b => b.salaryMin)),
    salaryMax := jsOrOptNum (salaryData.map (fun d => d.max))
      (jobBasic.bind (fun b => b.salaryMax)),
    salaryCurrency := jsOrStr ((salaryData.map (fun d => d.currency)).getD "")
      (jsOrStr ((jobBasic.bind (fun b => b.salaryCurrency)).getD "") "USD"),
    salaryPeriod := jsOrOptStr (salaryData.map (fun d => d.period))
      (jobBasic.bind (fun b => b.salaryPeriod)),
    jobType := jobType,
    employmentType := jobBasic.bind (fun b => b.employmentType),
    workplaceType := workplaceType,
    postedDate := postedDate,
    postedDateTimestamp := jobBasic.bind (fun b => b.postedDateTimestamp),
    url := url,
    easyApply := easyApply,
    summary := jobBasic.bind (fun b => b.summary),
    description := description,
    descriptionHtml := if descriptionHtml.length < 50000 then some descriptionHtml else none,
    skills := if skills1 = [] then none else some skills1,
    experienceLevel := experienceLevel,
    educationLevel := educationLevel,
    benefits := if benefits = [] then none else some benefits,
    companyDescription := companyDescription,
    companyLogo := companyLogo,
    applicationUrl := applicationUrl,
    scrapedAt := env.nowIso }

/-! Route dispatcher state and handlers (src/routes.ts).  The module-level
mutable state (`jobsScraped`, `maxJobs`, `scrapeJobDetails`) is passed
explicitly; each handler is a pure function from its inputs (carried
request data plus the fetched/parsed response) to the state update, the
persisted records and the scheduled requests. -/

/-- The `SearchParams` shape of src/types.ts. -/
structure SearchParams where
  query : String := ""
  location : String := ""
  radius : Int := 0
  employmentTypes : List String := []
  postedDate : String := "ANY"
  workplaceTypes : List String := []
  easyApply : Bool := false
  page : Int := 1
  pageSize : Int := 100
  deriving DecidableEq, Repr

/-- The `meta` object of a search API response. -/
structure DiceMeta where
  totalJobs : Int := 0
  page : Int := 0
  pageSize : Int := 0
  currentPage : Int := 0
  totalPages : Int := 0
  deriving DecidableEq, Repr

/-- A search API response body; `data`/`meta` are optional because the
handler guards `!data.data` and uses `data.meta?.…`. -/
structure DiceSearchResponse where
  data : Option (List DiceSearchJob) := none
  meta : Option DiceMeta := none
  deriving DecidableEq, Repr

/-- The run-scoped mutable state of src/routes.ts. -/
structure RouterState where
  jobsScraped : Nat
  maxJobs : Nat
  scrapeJobDetails : Bool
  deriving DecidableEq, Repr

/-- `shouldContinue` from src/routes.ts. -/
def shouldContinue (maxJobs jobsScraped : Nat) : Bool :=
  maxJobs == 0 || jobsScraped < maxJobs

/-- A record handed to `Dataset.pushData`: either a basic record (with its
`scrapedAt` stamp and optional `error` marker spread in) or a full record. -/
inductive PersistedRecord where
  | basicRec (job : JobListingBasic) (scrapedAt : String) (error : Option String)
  | fullRec (job : JobListingFull)
  deriving DecidableEq, Repr

/-- The `url` field of a persisted record. -/
def PersistedRecord.urlOf : PersistedRecord → String
  | .basicRec b _ _ => b.url
  | .fullRec f => f.url

/-- The `id` field of a persisted record. -/
def PersistedRecord.idOf : PersistedRecord → String
  | .basicRec b _ _ => b.id
  | .fullRec f => f.id

/-- A scheduled `JOB_DETAIL` request (url plus the carried basic record). -/
structure DetailRequest where
  url : String
  jobBasic : JobListingBasic
  deriving DecidableEq, Repr

/-- A scheduled next-page `SEARCH_API` request. -/
structure NextPageRequest where
  url : String
  page : Int
  searchParams : SearchParams
  uniqueKey : String
  deriving DecidableEq, Repr

/-- What one `SEARCH_API` handler invocation produces. -/
structure SearchApiOutcome where
  jobsScraped : Nat
  basics : List JobListingBasic
  detailRequests : List DetailRequest
  persisted : List PersistedRecord
  nextRequest : Option NextPageRequest
  deriving DecidableEq, Repr

/-- The per-job loop of the `SEARCH_API` handler: for each job, re-check
`shouldContinue`, map it, push it and increment `jobsScraped`; the first
failing check breaks.  Returns the final counter and the mapped jobs. -/
def processApiJobs (env : JsDateEnv) (maxJobs : Nat) :
    Nat → List DiceSearchJob → Nat × List JobListingBasic
  | j, [] => (j, [])
  | j, job :: rest =>
    if shouldContinue maxJobs j then
      let parsed := parseJobFromApi env job
      let r := processApiJobs env maxJobs (j + 1) rest
      (r.1, parsed :: r.2)
    else (j, [])

/-- An invocation that produced nothing and left the counter unchanged. -/
def emptyOutcome (j : Nat) : SearchApiOutcome :=
  { jobsScraped := j, basics := [], detailRequests := [], persisted := [],
    nextRequest := none }

/-- The `SEARCH_API` handler of src/routes.ts, given the carried
`searchParams` and the fetched response body (`none` models a missing/falsy
body, which the handler logs and abandons). -/
def searchApiHandler (env : JsDateEnv) (st : RouterState)
    (searchParams : SearchParams) (resp : Option DiceSearchResponse) :
    SearchApiOutcome :=
  if ¬ shouldContinue st.maxJobs st.jobsScraped then emptyOutcome st.jobsScraped
  else
    match resp with
    | none => emptyOutcome st.jobsScraped
    | some d =>
      match d.data with
      | none => emptyOutcome st.jobsScraped
      | some jobs =>
        let totalPages : Int :=
          match d.meta with
          | some m => if m.totalPages = 0 then 1 else m.totalPages
          | none => 1
        let pr := processApiJobs env st.maxJobs st.jobsScraped jobs
        let jobsToProcess := pr.2
        let detailReqs :=
          if st.scrapeJobDetails ∧ jobsToProcess ≠ [] then
            jobsToProcess.map (fun b => DetailRequest.mk b.url b)
          else []
        let persisted :=
          if st.scrapeJobDetails ∧ jobsToProcess ≠ [] then []
          else jobsToProcess.map (fun b => PersistedRecord.basicRec b env.nowIso none)
        let nextReq :=
          if shouldContinue st.maxJobs pr.1 ∧ searchParams.page < totalPages then
            some { url := DICE_API_URL ++ "?page=" ++ toString (searchParams.page + 1),
                   page := searchParams.page + 1,
                   searchParams := { searchParams with page := searchParams.page + 1 },
                   uniqueKey := "search-page-" ++ toString (searchParams.page + 1) }
          else none
        { jobsScraped := pr.1, basics := jobsToProcess,
          detailRequests := detailReqs, persisted := persisted,
          nextRequest := nextReq }

/-- The selector results for one job card of the HTML search page. -/
structure CardData where
  titleText : String := ""
  companyText : String := ""
  locationText : String := ""
  salaryText : String := ""
  postedDateText : String := ""
  href : Option String := none
  easyApplyBadge : Bool := false
  deriving DecidableEq, Repr

/-- The per-card record construction of the `SEARCH` (HTML) handler. -/
def parseCard (now : Int) (index : Nat) (card : CardData) : JobListingBasic :=
  let jobUrl :=
    match card.href with
    | some h => h
    | none => ""
  let fullUrl :=
    if "http".data.isPrefixOf jobUrl.data then jobUrl else "https://www.dice.com" ++ jobUrl
  let salary := cleanText card.salaryText
  { id := jsOrStr ((extractJobIdFromUrl fullUrl).getD "")
      ("job-" ++ toString now ++ "-" ++ toString index),
    title := cleanText card.titleText,
    company := cleanText card.companyText,
    location := cleanText card.locationText,
    salary := if salary = "" then none else some salary,
    postedDate := cleanText card.postedDateText,
    url := fullUrl,
    easyApply := some card.easyApplyBadge }

/-- The per-card loop of the `SEARCH` handler (`each` with `return false`
on a failing `shouldContinue` check). -/
def processCards (now : Int) (maxJobs : Nat) :
    Nat → Nat → List CardData → Nat × List JobListingBasic
  | j, _, [] => (j, [])
  | j, idx, card :: rest =>
    if shouldContinue maxJobs j then
      let b := parseCard now idx card
      let r := processCards now maxJobs (j + 1) (idx + 1) rest
      (r.1, b :: r.2)
    else (j, [])

/-- What one `SEARCH` (HTML) handler invocation produces; `nextPage` is the
page number of the scheduled next-page request, if any. -/
structure SearchHtmlOutcome where
  jobsScraped : Nat
  basics : List JobListingBasic
  detailRequests : List DetailRequest
  persisted : List PersistedRecord
  nextPage : Option Int
  deriving DecidableEq, Repr

/-- The `SEARCH` (HTML fallback) handler of src/routes.ts, given the job
cards found in the document and whether a non-disabled next-page button is
present. -/
def searchHtmlHandler (env : JsDateEnv) (st : RouterState) (page : Int)
    (cards : List CardData) (nextButton : Bool) : SearchHtmlOutcome :=
  if ¬ shouldContinue st.maxJobs st.jobsScraped then
    { jobsScraped := st.jobsScraped, basics := [], detailRequests := [],
      persisted := [], nextPage := none }
  else if cards = [] then
    { jobsScraped := st.jobsScraped, basics := [], detailRequests := [],
      persisted := [], nextPage := none }
  else
    let pr := processCards env.nowMs st.maxJobs st.jobsScraped 0 cards
    let jobsToProcess := pr.2
    let detailReqs :=
      if st.scrapeJobDetails ∧ jobsToProcess ≠ [] then
        jobsToProcess.map (fun b => DetailRequest.mk b.url b)
      else []
    let persisted :=
      if st.scrapeJobDetails ∧ jobsToProcess ≠ [] then []
      else jobsToProcess.map (fun b => PersistedRecord.basicRec b env.nowIso none)
    let nextPage :=
      if shouldContinue st.maxJobs pr.1 ∧ nextButton then some (page + 1) else none
    { jobsScraped := pr.1, basics := jobsToProcess,
      detailRequests := detailReqs, persisted := persisted,
      nextPage := nextPage }

/-- The `JOB_DETAIL` handler of src/routes.ts.  `extractionResult` is the
outcome of the `extractJobDetails` call (an `Except` because any exception
thrown by the document layer inside the call is caught by the handler's
`try`/`catch`).  Returns the records pushed and whether an exception
escapes the handler. -/
def jobDetailHandler (jobBasic : Option JobListingBasic)
    (extractionResult : Except String JobListingFull) (nowIso : String) :
    List PersistedRecord × Bool :=
  match extractionResult with
  | .ok jd => ([PersistedRecord.fullRec jd], false)
  | .error _ =>
    match jobBasic with
    | some b =>
      ([PersistedRecord.basicRec b nowIso (some "Failed to extract full details")],
       false)
    | none => ([], false)

/-! Generic lemmas about the regex engine. -/

/-- The defining equation of `Rx.run` on a concatenation. -/
theorem run_cat_eq (a b : Rx) (s : List Char) :
    Rx.run (Rx.cat a b) s =
      (Rx.run a s).flatMap (fun r1 =>
        (Rx.run b r1.1).map (fun r2 => (r2.1, r1.2 ++ r2.2))) := rfl

/-- A character class matches nothing when no character of `s` satisfies it. -/
theorem run_chrP_nil {p : Char → Bool} {s : List Char}
    (h : ∀ c ∈ s, p c = false) : Rx.run (Rx.chrP p) s = [] := by
  cases s with
  | nil => rfl
  | cons c cs => simp [Rx.run, h c (List.mem_cons_self c cs)]

/-- A concatenation matches nothing when its head matches nothing. -/
theorem run_cat_nil_left {a b : Rx} {s : List Char}
    (h : Rx.run a s = []) : Rx.run (Rx.cat a b) s = [] := by
  rw [run_cat_eq, h]; rfl

/-- A group matches nothing when its body matches nothing. -/
theorem run_grp_nil {i : Nat} {a : Rx} {s : List Char}
    (h : Rx.run a s = []) : Rx.run (Rx.grp i a) s = [] := by
  simp [Rx.run, h]

/-- Whatever a regex leaves unconsumed is a suffix of the input. -/
theorem run_suffix (r : Rx) : ∀ (s : List Char) (res : List Char × Caps),
    res ∈ Rx.run r s → res.1 <:+ s := by
  induction r with
  | emp =>
    intro s res h
    simp only [Rx.run, List.mem_singleton] at h
    subst h
    exact List.suffix_refl s
  | chrP p =>
    intro s res h
    cases s with
    | nil => simp [Rx.run] at h
    | cons c cs =>
      by_cases hp : p c
      · simp only [Rx.run, hp, if_true, List.mem_singleton] at h
        subst h
        exact List.suffix_cons c cs
      · simp [Rx.run, hp] at h
  | starP p =>
    intro s res h
    simp only [Rx.run, List.mem_map, List.mem_range] at h
    obtain ⟨i, _, hres⟩ := h
    rw [← hres]
    exact List.drop_suffix _ s
  | cat a b iha ihb =>
    intro s res h
    rw [run_cat_eq] at h
    simp only [List.mem_flatMap, List.mem_map] at h
    obtain ⟨r1, hr1, r2, hr2, hres⟩ := h
    have h1 := iha s r1 hr1
    have h2 := ihb r1.1 r2 hr2
    rw [← hres]
    exact h2.trans h1
  | alt a b iha ihb =>
    intro s res h
    simp only [Rx.run, List.mem_append] at h
    rcases h with h | h
    · exact iha s res h
    · exact ihb s res h
  | grp i a ih =>
    intro s res h
    simp only [Rx.run, List.mem_map] at h
    obtain ⟨r1, hr1, hres⟩ := h
    rw [← hres]
    exact ih s r1 hr1

/-- `firstMatch` finds nothing when the regex matches at no suffix. -/
theorem firstMatch_none (r : Rx) : ∀ (s : List Char),
    (∀ t, t <:+ s → Rx.run r t = []) → firstMatch r s = none := by
  intro s
  induction s with
  | nil =>
    intro h
    simp [firstMatch, h [] (List.suffix_refl [])]
  | cons c cs ih =>
    intro h
    have h1 := h (c :: cs) (List.suffix_refl _)
    simp [firstMatch, h1]
    exact ih (fun t ht => h t (ht.trans (List.suffix_cons c cs)))

/-- The number token matches nothing on digit-and-comma-free text. -/
theorem run_numPat_nil {t : List Char}
    (h : ∀ c ∈ t, digComma c = false) : Rx.run numPat t = [] := by
  unfold numPat plusP
  exact run_cat_nil_left (run_cat_nil_left (run_chrP_nil h))

/-- Both salary regexes start `\$?(number)…`, so they match nothing on
digit-and-comma-free text. -/
theorem run_salaryShape_nil (rest : Rx) {t : List Char}
    (h : ∀ c ∈ t, digComma c = false) :
    Rx.run (Rx.cat (optR (Rx.chrP (fun c => c = '$')))
      (Rx.cat (Rx.grp 1 numPat) rest)) t = [] := by
  rw [run_cat_eq]
  apply List.flatMap_eq_nil_iff.mpr
  intro x hx
  have hsuf := run_suffix _ t x hx
  have hx1 : ∀ c ∈ x.1, digComma c = false := fun c hc => h c (hsuf.subset hc)
  rw [run_cat_eq, run_grp_nil (run_numPat_nil hx1)]
  rfl

/-- The range regex matches nothing on digit-and-comma-free text. -/
theorem rangeRx_run_nil {t : List Char}
    (h : ∀ c ∈ t, digComma c = false) : Rx.run rangeRx t = [] := by
  unfold rangeRx
  exact run_salaryShape_nil _ h

/-- The single-value regex matches nothing on digit-and-comma-free text. -/
theorem singleRx_run_nil {t : List Char}
    (h : ∀ c ∈ t, digComma c = false) : Rx.run singleRx t = [] := by
  unfold singleRx
  exact run_salaryShape_nil _ h

/-! Shared concrete inputs for witnesses and counterexamples. -/

/-- A concrete date environment in which no string parses as a date (as with
the real `Date` constructor on non-date text). -/
def env0 : JsDateEnv :=
  { parseDateMs := fun _ => none, nowMs := 0,
    locDateValid := fun _ => "Jan 1, 2020",
    nowIso := "2024-01-01T00:00:00.000Z" }

/-- C7, corrected universal part: on text with no digit and no comma the two
value regexes cannot match, so the function returns `null`. -/
theorem parseSalary_nonNumeric_none (s : String)
    (h : ∀ c ∈ s.data, digComma c = false) : parseSalaryFromText s = none := by
  by_cases hs : s = ""
  · simp [parseSalaryFromText, hs]
  · have hr : firstMatch rangeRx s.data = none :=
      firstMatch_none _ _ (fun t ht => rangeRx_run_nil (fun c hc => h c (ht.subset hc)))
    have hsg : firstMatch singleRx s.data = none :=
      firstMatch_none _ _ (fun t ht => singleRx_run_nil (fun c hc => h c (ht.subset hc)))
    simp [parseSalaryFromText, hs, hr, hsg]

/-- C7 (amended): the four documented evaluations of parseSalaryFromText
hold exactly as specified, and empty input or input containing neither a
digit nor a comma yields `null`.  (Input that is non-numeric but contains a
comma is excluded: see the counterexample.) -/
theorem c7_parseSalaryFromText :
    parseSalaryFromText "$80,000 - $120,000/year" =
      some { min := JsNum.num 80000, max := JsNum.num 120000,
             currency := "USD", period := "year" } ∧
    parseSalaryFromText "$50/hour" =
      some { min := JsNum.num 50, max := JsNum.num 50,
             currency := "USD", period := "hour" } ∧
    parseSalaryFromText "$80K - $120K" =
      some { min := JsNum.num 80000, max := JsNum.num 120000,
             currency := "USD", period := "year" } ∧
    parseSalaryFromText "Competitive" = none ∧
    parseSalaryFromText "" = none ∧
    (∀ s : String, (∀ c ∈ s.data, digComma c = false) →
      parseSalaryFromText s = none) :=
  ⟨by decide, by decide, by decide, by decide, by decide,
   fun s h => parseSalary_nonNumeric_none s h⟩

/-- C7 witness: the universal clause applied at a concrete non-numeric
input. -/
theorem c7_parseSalaryFromText_witness :
    parseSalaryFromText "No salary info" = none :=
  c7_parseSalaryFromText.2.2.2.2.2 "No salary info" (by decide)

/-- C7 counterexample: the bare string "," is empty of digits (non-numeric)
yet parseSalaryFromText returns a NaN-valued object, not `null` — the
single-value regex matches the comma, the comma-stripped capture is empty
and `parseFloat("")` is NaN. -/
theorem c7_parseSalaryFromText_counterexample :
    parseSalaryFromText "," =
      some { min := JsNum.nan, max := JsNum.nan,
             currency := "USD", period := "year" } ∧
    parseSalaryFromText "," ≠ none := by
  constructor
  · decide
  · decide

/-- C6 (amended): `formatPostedDate("")` is "Unknown", and on a non-empty
string that does not parse as a date the function does not throw but
returns the locale rendering of an Invalid Date — the fixed string
"Invalid Date" — rather than the original input.  (`new Date` never throws
on bad input, so the `catch` that would return the original is dead code.) -/
theorem c6_formatPostedDate (env : JsDateEnv) (s : String)
    (hne : s ≠ "") (hbad : env.parseDateMs s = none) :
    formatPostedDate env s = "Invalid Date" ∧
    formatPostedDate env "" = "Unknown" := by
  constructor
  · simp [formatPostedDate, hne, hbad]
  · simp [formatPostedDate]

/-- C6 witness: the amended theorem at a concrete unparseable input. -/
theorem c6_formatPostedDate_witness :
    formatPostedDate env0 "hello world" = "Invalid Date" ∧
    formatPostedDate env0 "" = "Unknown" :=
  c6_formatPostedDate env0 "hello world" (by decide) rfl

/-- C6 counterexample: for the unparseable input "hello world" the function
returns "Invalid Date", not the original string unchanged. -/
theorem c6_formatPostedDate_counterexample :
    formatPostedDate env0 "hello world" = "Invalid Date" ∧
    formatPostedDate env0 "hello world" ≠ "hello world" := by
  constructor
  · decide
  · decide

/-- C9 (amended): `postedDateTimestamp` is present exactly when the raw
`postedDate` string is non-empty: absent for the empty string, the parsed
epoch milliseconds for a parseable string, and the number NaN — present,
not absent — for a non-empty unparseable string. -/
theorem c9_postedDateTimestamp (env : JsDateEnv) (job : DiceSearchJob) :
    (job.postedDate = "" →
      (parseJobFromApi env job).postedDateTimestamp = none) ∧
    (∀ t : Int, job.postedDate ≠ "" → env.parseDateMs job.postedDate = some t →
      (parseJobFromApi env job).postedDateTimestamp = some (JsNum.num t)) ∧
    (job.postedDate ≠ "" → env.parseDateMs job.postedDate = none →
      (parseJobFromApi env job).postedDateTimestamp = some JsNum.nan) := by
  refine ⟨fun h => ?_, fun t h hp => ?_, fun h hp => ?_⟩
  · simp [parseJobFromApi, h]
  · simp [parseJobFromApi, h, hp]
  · simp [parseJobFromApi, h, hp]

/-- C9 witness: the amended theorem at a concrete unparseable date. -/
theorem c9_postedDateTimestamp_witness :
    (parseJobFromApi env0 { postedDate := "not-a-date" }).postedDateTimestamp =
      some JsNum.nan :=
  (c9_postedDateTimestamp env0 { postedDate := "not-a-date" }).2.2 (by decide) rfl

/-- C9 counterexample: for a job whose raw posted date is the non-empty
unparseable string "not-a-date", the basic record carries
`postedDateTimestamp = NaN` — present and NaN, where the claim requires it
to be absent. -/
theorem c9_postedDateTimestamp_counterexample :
    (parseJobFromApi env0 { postedDate := "not-a-date" }).postedDateTimestamp =
      some JsNum.nan ∧
    (parseJobFromApi env0 { postedDate := "not-a-date" }).postedDateTimestamp ≠
      none := by
  constructor
  · decide
  · decide

/-- C10: formatSalary treats a zero bound as absent: `undefined` when both
bounds are 0 or absent, and with a zero/absent min and a non-zero max the
result is exactly what the estimate with the min removed produces — the
single formatted max bound (with the period suffix); a 0 bound is never
rendered. -/
theorem c10_formatSalary_zeroBounds (e : SalaryEstimate) (m : ℚ) :
    (formatSalary none = none) ∧
    ((e.minValue = none ∨ e.minValue = some (JsNum.num 0)) →
     (e.maxValue = none ∨ e.maxValue = some (JsNum.num 0)) →
     formatSalary (some e) = none) ∧
    ((e.minValue = none ∨ e.minValue = some (JsNum.num 0)) →
     e.maxValue = some (JsNum.num m) → m ≠ 0 →
     formatSalary (some e) = formatSalary (some { e with minValue := none }) ∧
     formatSalary (some e) =
       some (intlCurrencyFmt
         (match e.currency with
          | some c => if c = "" then "USD" else c
          | none => "USD") (JsNum.num m) ++
         (match e.unitText with
          | some u => if u = "" then "" else "/" ++ (⟨u.data.map Char.toLower⟩ : String)
          | none => ""))) := by
  obtain ⟨mn, mx, cur, unit⟩ := e
  refine ⟨rfl, ?_, ?_⟩
  · rintro (h1 | h1) (h2 | h2) <;> subst h1 <;> subst h2 <;>
      simp [formatSalary, truthyOptNum, JsNum.truthy]
  · rintro (h1 | h1) h2 h3 <;> subst h1 <;> subst h2 <;> refine ⟨?_, ?_⟩ <;>
      simp [formatSalary, truthyOptNum, JsNum.truthy, h3]

/-- C10 witness: both-zero yields `undefined`; zero min with positive max
renders only the max bound (and equals the min-free estimate's output). -/
theorem c10_formatSalary_zeroBounds_witness :
    formatSalary (some { minValue := some (JsNum.num 0),
                         maxValue := some (JsNum.num 0) }) = none ∧
    formatSalary (some { minValue := some (JsNum.num 0),
                         maxValue := some (JsNum.num 120000) }) =
      formatSalary (some { minValue := none,
                           maxValue := some (JsNum.num 120000) }) :=
  ⟨(c10_formatSalary_zeroBounds
      { minValue := some (JsNum.num 0), maxValue := some (JsNum.num 0) } 0).2.1
      (Or.inr rfl) (Or.inr rfl),
   ((c10_formatSalary_zeroBounds
      { minValue := some (JsNum.num 0), maxValue := some (JsNum.num 120000) }
      120000).2.2 (Or.inr rfl) rfl (by norm_num)).1⟩

/-- C4: the JOB_DETAIL handler degrades gracefully: when extraction fails
with any exception and a basic record is carried, exactly that basic record
is persisted, annotated with the failure marker and a scrapedAt stamp; when
extraction succeeds the full record is persisted; and in no case does the
exception escape the handler. -/
theorem c4_jobDetail_degrade (b : JobListingBasic) (e : String)
    (jd : JobListingFull) (nowIso : String)
    (res : Except String JobListingFull) :
    jobDetailHandler (some b) (Except.error e) nowIso =
      ([PersistedRecord.basicRec b nowIso (some "Failed to extract full details")],
       false) ∧
    jobDetailHandler (some b) (Except.ok jd) nowIso =
      ([PersistedRecord.fullRec jd], false) ∧
    (jobDetailHandler (some b) res nowIso).2 = false := by
  refine ⟨rfl, rfl, ?_⟩
  cases res <;> rfl

/-! Lemmas for the persisted-record and job-cap claims. -/

/-- Appending to a non-empty string keeps it non-empty. -/
theorem str_append_ne_empty (a b : String) (ha : a ≠ "") : a ++ b ≠ "" := by
  obtain ⟨la⟩ := a
  obtain ⟨lb⟩ := b
  intro h
  have hd := congrArg String.data h
  simp only [String.data_append] at hd
  rcases List.append_eq_nil.mp hd with ⟨h1, _⟩
  exact ha (by subst h1; rfl)

/-- The url built by parseJobFromApi is never empty: either it starts with
"http" or it is the non-empty base url plus the relative path. -/
theorem parseJobFromApi_url_ne (env : JsDateEnv) (job : DiceSearchJob) :
    (parseJobFromApi env job).url ≠ "" := by
  show (if "http".data.isPrefixOf job.detailsPageUrl.data then job.detailsPageUrl
    else DICE_BASE_URL ++ job.detailsPageUrl) ≠ ""
  by_cases hp : "http".data.isPrefixOf job.detailsPageUrl.data
  · simp only [hp, if_true]
    intro h
    rw [h] at hp
    simp [List.isPrefixOf] at hp
  · simp only [hp, if_false]
    exact str_append_ne_empty _ _ (by decide)

/-- The id built by parseJobFromApi is non-empty whenever the source job's
id or guid is non-empty. -/
theorem parseJobFromApi_id_ne (env : JsDateEnv) (job : DiceSearchJob)
    (h : job.id ≠ "" ∨ job.guid.getD "" ≠ "") :
    (parseJobFromApi env job).id ≠ "" := by
  show jsOrStr job.id (jsOrStr (job.guid.getD "") "") ≠ ""
  rcases h with h | h
  · simp [jsOrStr, h]
  · by_cases hid : job.id = "" <;> simp [jsOrStr, hid, h]

/-- Every basic record produced by the SEARCH_API per-job loop is
parseJobFromApi of some job of the page. -/
theorem processApiJobs_mem (env : JsDateEnv) (m : Nat) :
    ∀ (jobs : List DiceSearchJob) (j : Nat) (b : JobListingBasic),
      b ∈ (processApiJobs env m j jobs).2 →
      ∃ job ∈ jobs, b = parseJobFromApi env job := by
  intro jobs
  induction jobs with
  | nil => intro j b h; simp [processApiJobs] at h
  | cons job rest ih =>
    intro j b h
    by_cases hc : shouldContinue m j = true
    · simp only [processApiJobs, hc, if_true, List.mem_cons] at h
      rcases h with h | h
      · exact ⟨job, List.mem_cons_self job rest, h⟩
      · obtain ⟨job', hj', hb⟩ := ih (j + 1) b h
        exact ⟨job', List.mem_cons_of_mem job hj', hb⟩
    · simp [processApiJobs, hc] at h

/-- C1 (amended): every record the SEARCH_API handler persists has a
non-empty `url`; a Full record from extractJobDetails always has a
non-empty `id`; a record from parseJobFromApi has a non-empty `id` exactly
when the source job's primary id or guid is non-empty (both empty falls
through to the empty string — see the counterexample); and the degraded
record the JOB_DETAIL handler persists carries the basic record's own id
and url. -/
theorem c1_persisted_id_url :
    (∀ env st sp resp (r : PersistedRecord),
      r ∈ (searchApiHandler env st sp resp).persisted → r.urlOf ≠ "") ∧
    (∀ env job, (parseJobFromApi env job).url ≠ "") ∧
    (∀ env job, job.id ≠ "" ∨ job.guid.getD "" ≠ "" →
      (parseJobFromApi env job).id ≠ "") ∧
    (∀ doc jb url env, (extractJobDetails doc jb url env).id ≠ "") ∧
    (∀ b e nowIso (r : PersistedRecord),
      r ∈ (jobDetailHandler (some b) (Except.error e) nowIso).1 →
      r.idOf = b.id ∧ r.urlOf = b.url) := by
  refine ⟨?_, parseJobFromApi_url_ne, parseJobFromApi_id_ne, ?_, ?_⟩
  · intro env st sp resp r hr
    by_cases hg : shouldContinue st.maxJobs st.jobsScraped = true
    · match resp with
      | none => simp [searchApiHandler, hg, emptyOutcome] at hr
      | some d =>
        match hd : d.data with
        | none => simp [searchApiHandler, hg, hd, emptyOutcome] at hr
        | some jobs =>
          simp only [searchApiHandler, hg, hd, emptyOutcome, not_true,
            if_false] at hr
          split at hr
          · simp at hr
          · simp only [List.mem_map] at hr
            obtain ⟨b, hb, hrb⟩ := hr
            obtain ⟨job, _, hbj⟩ := processApiJobs_mem env st.maxJobs jobs
              st.jobsScraped b hb
            rw [← hrb]
            show b.url ≠ ""
            rw [hbj]
            exact parseJobFromApi_url_ne env job
    · simp [searchApiHandler, hg, emptyOutcome] at hr
  · intro doc jb url env
    show jsOrStr ((jb.map (fun b => b.id)).getD "")
      (jsOrStr ((extractJobIdFromUrl url).getD "") ("job-" ++ toString env.nowMs)) ≠ ""
    by_cases h1 : ((jb.map (fun b => b.id)).getD "") = ""
    · by_cases h2 : ((extractJobIdFromUrl url).getD "") = ""
      · simp only [jsOrStr, h1, h2, if_true]
        exact str_append_ne_empty "job-" _ (by decide)
      · simp [jsOrStr, h1, h2]
    · simp [jsOrStr, h1]
  · intro b e nowIso r hr
    simp only [jobDetailHandler, List.mem_singleton] at hr
    subst hr
    exact ⟨rfl, rfl⟩

/-- C1 witness: the id clause at a job with a non-empty primary id. -/
theorem c1_persisted_id_url_witness :
    (parseJobFromApi env0 { id := "abc-123", detailsPageUrl := "/job/1" }).id ≠ "" :=
  c1_persisted_id_url.2.2.1 env0 { id := "abc-123", detailsPageUrl := "/job/1" }
    (Or.inl (by decide))

/-- C1 counterexample: an API job whose primary id and guid are both empty
is persisted (details disabled) with `id = ""` — the persisted record's id
is the empty string, violating the claimed invariant. -/
theorem c1_persisted_id_url_counterexample :
    ((searchApiHandler env0
        { jobsScraped := 0, maxJobs := 0, scrapeJobDetails := false } {}
        (some { data := some [{ id := "", guid := none,
                                detailsPageUrl := "/jobs/1" }],
                meta := none })).persisted.map PersistedRecord.idOf) = [""] := by
  decide

/-- On a bounded run the per-job loop takes exactly the first
`maxJobs - jobsScraped` jobs of the page. -/
theorem processApiJobs_take (env : JsDateEnv) (m : Nat) (hm : m ≠ 0) :
    ∀ (jobs : List DiceSearchJob) (j : Nat),
      (processApiJobs env m j jobs).2 =
        (jobs.take (m - j)).map (parseJobFromApi env) := by
  intro jobs
  induction jobs with
  | nil => intro j; simp [processApiJobs]
  | cons job rest ih =>
    intro j
    by_cases hc : shouldContinue m j = true
    · have hlt : j < m := by
        simp only [shouldContinue, Bool.or_eq_true, beq_iff_eq,
          decide_eq_true_eq] at hc
        rcases hc with hc | hc
        · exact absurd hc hm
        · exact hc
      have hmj : m - j = (m - (j + 1)) + 1 := by omega
      simp only [processApiJobs, hc, if_true, ih (j + 1), hmj,
        List.take_succ_cons, List.map_cons]
    · have hge : m - j = 0 := by
        simp only [shouldContinue, Bool.or_eq_true, beq_iff_eq,
          decide_eq_true_eq, not_or] at hc
        omega
      simp [processApiJobs, hc, hge]

/-- The analogous bound for the HTML card loop. -/
theorem processCards_len (now : Int) (m : Nat) (hm : m ≠ 0) :
    ∀ (cards : List CardData) (j idx : Nat),
      (processCards now m j idx cards).2.length ≤ m - j := by
  intro cards
  induction cards with
  | nil => intro j idx; simp [processCards]
  | cons card rest ih =>
    intro j idx
    by_cases hc : shouldContinue m j = true
    · have hlt : j < m := by
        simp only [shouldContinue, Bool.or_eq_true, beq_iff_eq,
          decide_eq_true_eq] at hc
        rcases hc with hc | hc
        · exact absurd hc hm
        · exact hc
      have := ih (j + 1) (idx + 1)
      simp only [processCards, hc, if_true, List.length_cons]
      omega
    · simp [processCards, hc]

/-- C3: `shouldContinue` is exactly `maxJobs == 0 ∨ jobsScraped < maxJobs`;
on a bounded run each search handler produces at most the remaining quota
of basic records on a page (the per-job check short-circuits the loop); in
particular with `maxJobs = 1`, `jobsScraped = 0` and an API page of 5 jobs,
at most 1 basic record is produced and at most 1 JOB_DETAIL request is
scheduled. -/
theorem c3_jobCap :
    (∀ m j, shouldContinue m j = true ↔ (m = 0 ∨ j < m)) ∧
    (∀ env st sp jobs meta', st.maxJobs ≠ 0 →
      (searchApiHandler env st sp
        (some { data := some jobs, meta := meta' })).basics.length ≤
          st.maxJobs - st.jobsScraped ∧
      (searchApiHandler env st sp
        (some { data := some jobs, meta := meta' })).detailRequests.length ≤
          st.maxJobs - st.jobsScraped) ∧
    (∀ env st page cards nextB, st.maxJobs ≠ 0 →
      (searchHtmlHandler env st page cards nextB).basics.length ≤
        st.maxJobs - st.jobsScraped) ∧
    (∀ env sp jobs meta', jobs.length = 5 →
      (searchApiHandler env { jobsScraped := 0, maxJobs := 1, scrapeJobDetails := true }
        sp (some { data := some jobs, meta := meta' })).basics.length ≤ 1 ∧
      (searchApiHandler env { jobsScraped := 0, maxJobs := 1, scrapeJobDetails := true }
        sp (some { data := some jobs, meta := meta' })).detailRequests.length ≤ 1) := by
  have hb : ∀ env st sp jobs meta', st.maxJobs ≠ 0 →
      (searchApiHandler env st sp
        (some { data := some jobs, meta := meta' })).basics.length ≤
          st.maxJobs - st.jobsScraped ∧
      (searchApiHandler env st sp
        (some { data := some jobs, meta := meta' })).detailRequests.length ≤
          st.maxJobs - st.jobsScraped := by
    intro env st sp jobs meta' hm
    by_cases hg : shouldContinue st.maxJobs st.jobsScraped = true
    · have hbk : (searchApiHandler env st sp
          (some { data := some jobs, meta := meta' })).basics =
            (jobs.take (st.maxJobs - st.jobsScraped)).map (parseJobFromApi env) := by
        simp only [searchApiHandler, hg, not_true, if_false]
        exact processApiJobs_take env st.maxJobs hm jobs st.jobsScraped
      have hlen : (searchApiHandler env st sp
          (some { data := some jobs, meta := meta' })).basics.length ≤
            st.maxJobs - st.jobsScraped := by
        rw [hbk]
        simp [List.length_take]
      refine ⟨hlen, ?_⟩
      have hdet : (searchApiHandler env st sp
          (some { data := some jobs, meta := meta' })).detailRequests.length ≤
            (searchApiHandler env st sp
              (some { data := some jobs, meta := meta' })).basics.length := by
        simp only [searchApiHandler, hg, not_true, if_false]
        split
        · simp
        · simp
      exact le_trans hdet hlen
    · simp [searchApiHandler, hg, emptyOutcome]
  refine ⟨?_, hb, ?_, ?_⟩
  · intro m j
    simp [shouldContinue]
  · intro env st page cards nextB hm
    by_cases hg : shouldContinue st.maxJobs st.jobsScraped = true
    · by_cases hcards : cards = []
      · simp [searchHtmlHandler, hg, hcards]
      · simp only [searchHtmlHandler, hg, hcards, not_true, if_false]
        exact processCards_len env.nowMs st.maxJobs hm cards st.jobsScraped 0
    · simp [searchHtmlHandler, hg]
  · intro env sp jobs meta' _
    exact hb env { jobsScraped := 0, maxJobs := 1, scrapeJobDetails := true }
      sp jobs meta' (by decide)

/-- C3 witness: the 5-job instance at a concrete page of five jobs. -/
theorem c3_jobCap_witness :
    (searchApiHandler env0 { jobsScraped := 0, maxJobs := 1, scrapeJobDetails := true }
      {} (some { data := some [{ id := "a" }, { id := "b" }, { id := "c" },
                               { id := "d" }, { id := "e" }],
                 meta := none })).basics.length ≤ 1 ∧
    (searchApiHandler env0 { jobsScraped := 0, maxJobs := 1, scrapeJobDetails := true }
      {} (some { data := some [{ id := "a" }, { id := "b" }, { id := "c" },
                               { id := "d" }, { id := "e" }],
                 meta := none })).detailRequests.length ≤ 1 :=
  c3_jobCap.2.2.2 env0 {}
    [{ id := "a" }, { id := "b" }, { id := "c" }, { id := "d" }, { id := "e" }]
    none (by decide)

/-- The reported total pages of a response (`data.meta?.totalPages || 1`). -/
def totalPagesOf (meta' : Option DiceMeta) : Int :=
  match meta' with
  | some m => if m.totalPages = 0 then 1 else m.totalPages
  | none => 1

/-- C5: after a page is processed (initial cap check passed, body present),
a next-page request exists iff `shouldContinue` still holds for the updated
counter and the current page is below the reported total pages; the request
carries the current SearchParams with only `page` incremented, and its
unique key is the page-scoped `search-page-<page+1>` — a function of the
page number alone, so scheduling the same page twice produces the same key
(request de-duplication makes the second a no-op). -/
theorem c5_nextPage (env : JsDateEnv) (st : RouterState) (sp : SearchParams)
    (jobs : List DiceSearchJob) (meta' : Option DiceMeta)
    (hcont : shouldContinue st.maxJobs st.jobsScraped = true) :
    ((searchApiHandler env st sp
        (some { data := some jobs, meta := meta' })).nextRequest.isSome = true ↔
      (shouldContinue st.maxJobs
        (searchApiHandler env st sp
          (some { data := some jobs, meta := meta' })).jobsScraped = true ∧
        sp.page < totalPagesOf meta')) ∧
    (∀ r, (searchApiHandler env st sp
        (some { data := some jobs, meta := meta' })).nextRequest = some r →
      r.searchParams = { sp with page := sp.page + 1 } ∧
      r.page = sp.page + 1 ∧
      r.uniqueKey = "search-page-" ++ toString (sp.page + 1) ∧
      r.url = DICE_API_URL ++ "?page=" ++ toString (sp.page + 1)) ∧
    (∀ env2 st2 sp2 jobs2 meta2 r r2, sp2.page = sp.page →
      (searchApiHandler env st sp
        (some { data := some jobs, meta := meta' })).nextRequest = some r →
      (searchApiHandler env2 st2 sp2
        (some { data := some jobs2, meta := meta2 })).nextRequest = some r2 →
      r2.uniqueKey = r.uniqueKey) := by
  have hkey : ∀ (env' : JsDateEnv) (st' : RouterState) (sp' : SearchParams)
      (jobs' : List DiceSearchJob) (meta'' : Option DiceMeta) (r' : NextPageRequest),
      (searchApiHandler env' st' sp'
        (some { data := some jobs', meta := meta'' })).nextRequest = some r' →
      r'.searchParams = { sp' with page := sp'.page + 1 } ∧
      r'.page = sp'.page + 1 ∧
      r'.uniqueKey = "search-page-" ++ toString (sp'.page + 1) ∧
      r'.url = DICE_API_URL ++ "?page=" ++ toString (sp'.page + 1) := by
    intro env' st' sp' jobs' meta'' r' hr
    by_cases hg : shouldContinue st'.maxJobs st'.jobsScraped = true
    · simp only [searchApiHandler, hg, not_true, if_false] at hr
      split at hr
      · rw [Option.some_inj] at hr
        subst hr
        exact ⟨rfl, rfl, rfl, rfl⟩
      · simp at hr
    · simp [searchApiHandler, hg, emptyOutcome] at hr
  refine ⟨?_, fun r hr => hkey env st sp jobs meta' r hr, ?_⟩
  · simp only [searchApiHandler, hcont, not_true, if_false]
    constructor
    · intro hsome
      split at hsome
      · next hcond => exact ⟨hcond.1, hcond.2⟩
      · simp at hsome
    · intro hcond
      rw [if_pos ⟨hcond.1, hcond.2⟩]
      rfl
  · intro env2 st2 sp2 jobs2 meta2 r r2 hpage hr hr2
    have h1 := (hkey env st sp jobs meta' r hr).2.2.1
    have h2 := (hkey env2 st2 sp2 jobs2 meta2 r2 hr2).2.2.1
    rw [h1, h2, hpage]

/-- C5 witness: a concrete page-1 invocation with 3 reported pages
schedules page 2 with the page-scoped key. -/
theorem c5_nextPage_witness :
    (searchApiHandler env0 { jobsScraped := 0, maxJobs := 0, scrapeJobDetails := true }
      { page := 1 } (some { data := some [], meta := some { totalPages := 3 } })).nextRequest.isSome
      = true ∧
    (∀ r, (searchApiHandler env0 { jobsScraped := 0, maxJobs := 0, scrapeJobDetails := true }
      { page := 1 } (some { data := some [], meta := some { totalPages := 3 } })).nextRequest
        = some r →
      r.searchParams = { page := 2 } ∧ r.uniqueKey = "search-page-2") := by
  have h := c5_nextPage env0 { jobsScraped := 0, maxJobs := 0, scrapeJobDetails := true }
    { page := 1 } [] (some { totalPages := 3 }) (by decide)
  refine ⟨h.1.mpr ⟨by decide, by decide⟩, fun r hr => ?_⟩
  have h2 := h.2.1 r hr
  exact ⟨h2.1, h2.2.2.1⟩

/-- C2 (amended): the detail-wins / basic-kept merge law holds for the
directly cascaded fields — salary, jobType, workplaceType (detail value
when its cleaned text is non-empty, else the basic value verbatim),
easyApply (badge wins, else basic), and companyId, employmentType,
postedDateTimestamp, summary are always taken from the basic record.  The
four parsed-salary fields are the exception: they are derived by re-parsing
the merged salary string; when that parse yields nothing, min/max/period do
fall back to the basic values, but salaryCurrency falls back to the basic
value *or the placeholder "USD"* when absent from both sources. -/
theorem c2_mergeLaw (doc : DetailDoc) (B : JobListingBasic) (url : String)
    (env : JsDateEnv) (F : JobListingFull)
    (hF : F = extractJobDetails doc (some B) url env) :
    (cleanText doc.salaryText = "" → F.salary = B.salary) ∧
    (cleanText doc.salaryText ≠ "" → F.salary = some (cleanText doc.salaryText)) ∧
    (cleanText doc.jobTypeText = "" → F.jobType = B.jobType) ∧
    (cleanText doc.jobTypeText ≠ "" → F.jobType = some (cleanText doc.jobTypeText)) ∧
    (cleanText doc.workFromHomeText = "" → F.workplaceType = B.workplaceType) ∧
    (cleanText doc.workFromHomeText ≠ "" →
      F.workplaceType = some (cleanText doc.workFromHomeText)) ∧
    F.companyId = B.companyId ∧
    F.employmentType = B.employmentType ∧
    F.postedDateTimestamp = B.postedDateTimestamp ∧
    F.summary = B.summary ∧
    (doc.easyApplyBadgeCount > 0 → F.easyApply = some true) ∧
    (doc.easyApplyBadgeCount = 0 → F.easyApply = B.easyApply) ∧
    (parseSalaryFromText (F.salary.getD "") = none →
      F.salaryMin = B.salaryMin ∧ F.salaryMax = B.salaryMax ∧
      F.salaryPeriod = B.salaryPeriod ∧
      F.salaryCurrency = jsOrStr (B.salaryCurrency.getD "") "USD") := by
  subst hF
  refine ⟨fun h => ?_, fun h => ?_, fun h => ?_, fun h => ?_, fun h => ?_,
    fun h => ?_, ?_, ?_, ?_, ?_, fun h => ?_, fun h => ?_, fun h => ?_⟩
  · simp [extractJobDetails, jsOrOptStr, h]
  · simp [extractJobDetails, jsOrOptStr, h]
  · simp [extractJobDetails, jsOrOptStr, h]
  · simp [extractJobDetails, jsOrOptStr, h]
  · simp [extractJobDetails, jsOrOptStr, h]
  · simp [extractJobDetails, jsOrOptStr, h]
  · simp [extractJobDetails]
  · simp [extractJobDetails]
  · simp [extractJobDetails]
  · simp [extractJobDetails]
  · simp [extractJobDetails, h]
  · simp [extractJobDetails, h]
  · simp only [extractJobDetails, Option.bind_some] at h ⊢
    rw [h]
    refine ⟨?_, ?_, ?_, ?_⟩ <;> simp [jsOrOptNum, jsOrOptStr, jsOrStr, truthyOptNum]

/-- C2 witness: the merge law at a detail page whose salary selector hits
and a basic record carrying a different salary. -/
theorem c2_mergeLaw_witness :
    (extractJobDetails { salaryText := "$100K - $150K" }
      (some { id := "j1", url := "u", salary := some "old" }) "u" env0).salary =
      some (cleanText "$100K - $150K") :=
  (c2_mergeLaw { salaryText := "$100K - $150K" }
    { id := "j1", url := "u", salary := some "old" } "u" env0 _ rfl).2.1 (by decide)

/-- C2 counterexample: with an empty detail document (every selector
misses) and a basic record with no salary fields at all, the full record's
`salaryCurrency` is the placeholder "USD", although the field is absent
from both sources — the claimed merge law requires it to be absent. -/
theorem c2_mergeLaw_counterexample :
    (extractJobDetails {} (some { id := "j1", url := "u" }) "u" env0).salaryCurrency
      = "USD" ∧
    ({ id := "j1", url := "u" } : JobListingBasic).salaryCurrency = none ∧
    (extractJobDetails {} (some { id := "j1", url := "u" }) "u" env0).salary
      = none := by
  refine ⟨by decide, by decide, by decide⟩

/-! C8: cleanText idempotence.  The second application is the identity
exactly when the first application's output contains none of the six
entities and no `<` (cleaning can otherwise create new entities or tags —
see the counterexample), because a cleaned string is already
whitespace-normalized. -/

/-- Substring occurrence test (used to state when a replacement fires). -/
def occursSub (pat : List Char) : List Char → Bool
  | [] => pat.isPrefixOf []
  | c :: cs => pat.isPrefixOf (c :: cs) || occursSub pat cs

/-- The cleaned output is stable when it contains no entity of the fixed
set and no `<`. -/
def entityTagFree (t : List Char) : Bool :=
  !occursSub "&nbsp;".data t && !occursSub "&amp;".data t &&
  !occursSub "&lt;".data t && !occursSub "&gt;".data t &&
  !occursSub "&quot;".data t && !occursSub "&#39;".data t &&
  !t.contains '<'

/-- A replacement pass is the identity when its pattern does not occur. -/
theorem replaceAllStrGo_id (pat rep : List Char) :
    ∀ (t : List Char) (fuel : Nat), occursSub pat t = false →
      replaceAllStrGo pat rep fuel t = t := by
  intro t
  induction t with
  | nil => intro fuel _; cases fuel <;> rfl
  | cons c cs ih =>
    intro fuel h
    simp only [occursSub, Bool.or_eq_false_iff] at h
    cases fuel with
    | zero => rfl
    | succ f =>
      have hcond : ¬(pat ≠ [] ∧ pat.isPrefixOf (c :: cs)) := by
        rintro ⟨_, hp⟩
        rw [h.1] at hp
        exact Bool.false_ne_true hp
      simp only [replaceAllStrGo, if_neg hcond]
      rw [ih f h.2]

/-- The tag-stripping pass is the identity when the text has no `<`. -/
theorem stripTagsGo_id :
    ∀ (t : List Char) (fuel : Nat), t.contains '<' = false →
      stripTagsGo fuel t = t := by
  intro t
  induction t with
  | nil => intro fuel _; cases fuel <;> rfl
  | cons c cs ih =>
    intro fuel h
    have hc : ¬(c = '<') := by
      intro hcc
      subst hcc
      simp [List.contains_cons] at h
    have hcs : cs.contains '<' = false := by
      simp only [List.contains_cons, Bool.or_eq_false_iff] at h
      exact h.2
    cases fuel with
    | zero => rfl
    | succ f =>
      have hcond : ¬(c = '<' ∧ cs.dropWhile (fun d => d ≠ '>') ≠ []) := by
        rintro ⟨h1, _⟩; exact hc h1
      simp only [stripTagsGo, if_neg hcond]
      rw [ih f hcs]

/-- The head surviving a `dropWhile` fails the predicate. -/
theorem dropWhile_head?_false (p : Char → Bool) :
    ∀ (l : List Char) (c : Char), (l.dropWhile p).head? = some c → p c = false := by
  intro l
  induction l with
  | nil => intro c h; simp at h
  | cons d ds ih =>
    intro c h
    by_cases hd : p d
    · rw [List.dropWhile_cons_of_pos hd] at h
      exact ih c h
    · rw [List.dropWhile_cons_of_neg hd] at h
      simp only [List.head?_cons, Option.some_inj] at h
      subst h
      exact Bool.not_eq_true _ ▸ (by simpa using hd)

/-- `dropWhile` is the identity when the head (if any) fails the predicate. -/
theorem dropWhile_eq_self_of_head (p : Char → Bool) (l : List Char)
    (h : ∀ c, l.head? = some c → p c = false) : l.dropWhile p = l := by
  cases l with
  | nil => rfl
  | cons c cs =>
    have := h c rfl
    rw [List.dropWhile_cons_of_neg (by simp [this])]

/-- `dropWhile` twice is `dropWhile` once. -/
theorem dropWhile_idem (p : Char → Bool) (l : List Char) :
    (l.dropWhile p).dropWhile p = l.dropWhile p :=
  dropWhile_eq_self_of_head p _ (fun c h => dropWhile_head?_false p l c h)

/-- Leading-whitespace removal. -/
def trimL (l : List Char) : List Char := l.dropWhile (fun c => jsWhitespace c)

/-- Trailing-whitespace removal. -/
def trimR (l : List Char) : List Char := (trimL l.reverse).reverse

/-- `trimJs` is trailing removal after leading removal. -/
theorem trimJs_eq (l : List Char) : trimJs l = trimR (trimL l) := rfl

/-- `trimR` is idempotent. -/
theorem trimR_idem (l : List Char) : trimR (trimR l) = trimR l := by
  unfold trimR trimL
  rw [List.reverse_reverse, dropWhile_idem]

/-- A nonempty `dropWhile` keeps the last element. -/
theorem dropWhile_getLast? (p : Char → Bool) (l : List Char)
    (h : l.dropWhile p ≠ []) : (l.dropWhile p).getLast? = l.getLast? := by
  obtain ⟨pre, hpre⟩ : ∃ pre, pre ++ l.dropWhile p = l :=
    ⟨l.takeWhile p, List.takeWhile_append_dropWhile p l⟩
  conv_rhs => rw [← hpre]
  rw [List.getLast?_append_of_ne_nil _ h]

/-- The head of `trimR (trimL l)` (when present) fails the whitespace test. -/
theorem trimR_trimL_head (l : List Char) (c : Char)
    (h : (trimR (trimL l)).head? = some c) : jsWhitespace c = false := by
  unfold trimR trimL at h
  rw [List.head?_reverse] at h
  by_cases hemp : ((l.dropWhile (fun c => jsWhitespace c)).reverse.dropWhile
      (fun c => jsWhitespace c)) = []
  · rw [hemp] at h; simp at h
  · rw [dropWhile_getLast? _ _ hemp, List.getLast?_reverse] at h
    exact dropWhile_head?_false _ l c h

/-- `trimL` after `trimR` after `trimL` is absorbed. -/
theorem trimL_trimR_trimL (l : List Char) :
    trimL (trimR (trimL l)) = trimR (trimL l) :=
  dropWhile_eq_self_of_head _ _ (fun c h => trimR_trimL_head l c h)

/-- `trimJs` is idempotent. -/
theorem trimJs_idem (l : List Char) : trimJs (trimJs l) = trimJs l := by
  rw [trimJs_eq, trimJs_eq, trimL_trimR_trimL, trimR_idem]

/-- The whitespace normal form: every whitespace character is a plain
space and no two whitespace characters are adjacent. -/
def wsOkP (t : List Char) : Prop :=
  (∀ c ∈ t, jsWhitespace c = true → c = ' ') ∧
  List.Chain' (fun a b => ¬(jsWhitespace a = true ∧ jsWhitespace b = true)) t

/-- The head of the collapser's output on a non-whitespace head is that
head. -/
theorem collapseWsGo_head (f : Nat) (d : Char) (ds : List Char)
    (hd : jsWhitespace d = false) :
    (collapseWsGo f (d :: ds)).head? = some d := by
  cases f with
  | zero => rfl
  | succ f' => simp [collapseWsGo, hd]

/-- The collapser's output is in whitespace normal form. -/
theorem collapseWsGo_wsOk :
    ∀ (fuel : Nat) (u : List Char), u.length ≤ fuel →
      wsOkP (collapseWsGo fuel u) := by
  intro fuel
  induction fuel with
  | zero =>
    intro u hu
    have hnil : u = [] := List.length_eq_zero.mp (Nat.le_zero.mp hu)
    subst hnil
    rw [show collapseWsGo 0 ([] : List Char) = [] from rfl]
    exact ⟨by simp, List.chain'_nil⟩
  | succ f ih =>
    intro u hu
    cases u with
    | nil =>
      rw [show collapseWsGo (f + 1) ([] : List Char) = [] from rfl]
      exact ⟨by simp, List.chain'_nil⟩
    | cons c cs =>
      simp only [List.length_cons, Nat.succ_le_succ_iff] at hu
      by_cases hws : jsWhitespace c = true
      · have hdrop : (cs.dropWhile (fun d => jsWhitespace d)).length ≤ f :=
          le_trans (List.dropWhile_sublist _).length_le hu
        have hrest := ih _ hdrop
        rw [show collapseWsGo (f + 1) (c :: cs) =
          ' ' :: collapseWsGo f (cs.dropWhile (fun d => jsWhitespace d)) from by
            simp only [collapseWsGo]
            rw [if_pos hws]]
        refine ⟨?_, ?_⟩
        · intro x hx _
          rcases List.mem_cons.mp hx with h | h
          · exact h
          · exact hrest.1 x h (by assumption)
        · rw [List.chain'_cons']
          refine ⟨?_, hrest.2⟩
          intro b hb
          match hhd : (cs.dropWhile (fun d => jsWhitespace d)) with
          | [] => rw [hhd] at hb; simp [collapseWsGo] at hb
          | d :: ds =>
            have hdws : jsWhitespace d = false := by
              have := dropWhile_head?_false (fun d => jsWhitespace d) cs d
              rw [hhd] at this
              exact this rfl
            rw [hhd, collapseWsGo_head f d ds hdws] at hb
            simp only [Option.mem_def, Option.some_inj] at hb
            subst hb
            rintro ⟨_, hbb⟩
            rw [hdws] at hbb
            exact Bool.false_ne_true hbb
      · have hrest := ih cs hu
        rw [show collapseWsGo (f + 1) (c :: cs) = c :: collapseWsGo f cs from by
          simp only [collapseWsGo]
          rw [if_neg hws]]
        refine ⟨?_, ?_⟩
        · intro x hx hxw
          rcases List.mem_cons.mp hx with h | h
          · subst h; exact absurd hxw hws
          · exact hrest.1 x h hxw
        · rw [List.chain'_cons']
          refine ⟨?_, hrest.2⟩
          intro b _
          rintro ⟨hcw, _⟩
          exact hws hcw

/-- On a whitespace-normal input (with enough fuel) the collapser is the
identity. -/
theorem collapseWsGo_eq_self :
    ∀ (fuel : Nat) (t : List Char), t.length ≤ fuel → wsOkP t →
      collapseWsGo fuel t = t := by
  intro fuel
  induction fuel with
  | zero =>
    intro t ht _
    have : t = [] := List.length_eq_zero.mp (Nat.le_zero.mp ht)
    subst this
    rfl
  | succ f ih =>
    intro t ht hok
    cases t with
    | nil => rfl
    | cons c cs =>
      simp only [List.length_cons, Nat.succ_le_succ_iff] at ht
      have htl : wsOkP cs := ⟨fun x hx => hok.1 x (List.mem_cons_of_mem c hx),
        hok.2.tail⟩
      by_cases hws : jsWhitespace c = true
      · have hsp : c = ' ' := hok.1 c (List.mem_cons_self c cs) hws
        have hdrop : cs.dropWhile (fun d => jsWhitespace d) = cs := by
          apply dropWhile_eq_self_of_head
          intro d hd
          have hchain := (List.chain'_cons'.mp hok.2).1 d (by rw [hd]; rfl)
          by_cases hdw : jsWhitespace d = true
          · exact absurd ⟨hws, hdw⟩ hchain
          · simpa using hdw
        rw [show collapseWsGo (f + 1) (c :: cs) =
          ' ' :: collapseWsGo f (cs.dropWhile (fun d => jsWhitespace d)) from by
            simp only [collapseWsGo]
            rw [if_pos hws]]
        rw [hdrop, ih cs ht htl, hsp]
      · rw [show collapseWsGo (f + 1) (c :: cs) = c :: collapseWsGo f cs from by
          simp only [collapseWsGo]
          rw [if_neg hws]]
        rw [ih cs ht htl]

/-- Whitespace normal form survives `dropWhile`. -/
theorem wsOkP_dropWhile (p : Char → Bool) (t : List Char) (h : wsOkP t) :
    wsOkP (t.dropWhile p) :=
  ⟨fun c hc => h.1 c ((List.dropWhile_sublist p).subset hc),
   h.2.suffix ⟨t.takeWhile p, List.takeWhile_append_dropWhile p t⟩⟩

/-- Whitespace normal form survives `reverse`. -/
theorem wsOkP_reverse (t : List Char) (h : wsOkP t) : wsOkP t.reverse :=
  ⟨fun c hc => h.1 c (List.mem_reverse.mp hc),
   List.chain'_reverse.mpr (h.2.imp (fun a b hab => fun hba => hab ⟨hba.2, hba.1⟩))⟩

/-- Whitespace normal form survives trimming. -/
theorem wsOkP_trimJs (t : List Char) (h : wsOkP t) : wsOkP (trimJs t) := by
  unfold trimJs
  exact wsOkP_reverse _ (wsOkP_dropWhile _ _ (wsOkP_reverse _ (wsOkP_dropWhile _ _ h)))

/-- C8 (amended): cleanText is idempotent on every input whose cleaned
output contains none of the six decoded entities and no `<` character.  In
general a second application can differ, because decoding can create a new
entity (or stripping can create a new tag) out of the surrounding text —
see the counterexample. -/
theorem c8_cleanText_idem (s : String)
    (h : entityTagFree (cleanText s).data = true) :
    cleanText (cleanText s) = cleanText s := by
  have hcleanEq : ∀ (x : String),
      cleanText x = if x = "" then "" else ⟨cleanTextL x.data⟩ :=
    fun x => rfl
  have hexpand : ∀ (x : List Char), cleanTextL x =
      trimJs (collapseWs (stripTags (replaceAllStr ("&#39;".data) ("'".data)
        (replaceAllStr ("&quot;".data) ("\"".data)
          (replaceAllStr ("&gt;".data) (">".data)
            (replaceAllStr ("&lt;".data) ("<".data)
              (replaceAllStr ("&amp;".data) ("&".data)
                (replaceAllStr ("&nbsp;".data) (" ".data) x)))))))) :=
    fun x => rfl
  by_cases hs : s = ""
  · rw [hs]
    rfl
  · by_cases ht : cleanText s = ""
    · rw [ht]
      rfl
    · simp only [entityTagFree, Bool.and_eq_true, Bool.not_eq_true',
        Bool.not_eq_true] at h
      obtain ⟨⟨⟨⟨⟨⟨h1, h2⟩, h3⟩, h4⟩, h5⟩, h6⟩, h7⟩ := h
      have hrepl : ∀ (pat rep t : List Char), occursSub pat t = false →
          replaceAllStr pat rep t = t :=
        fun pat rep t hp => replaceAllStrGo_id pat rep t t.length hp
      set w := stripTags (replaceAllStr ("&#39;".data) ("'".data)
        (replaceAllStr ("&quot;".data) ("\"".data)
          (replaceAllStr ("&gt;".data) (">".data)
            (replaceAllStr ("&lt;".data) ("<".data)
              (replaceAllStr ("&amp;".data) ("&".data)
                (replaceAllStr ("&nbsp;".data) (" ".data) s.data)))))) with hw
      have hstab1 : collapseWs (trimJs (collapseWs w)) = trimJs (collapseWs w) :=
        collapseWsGo_eq_self _ _ (le_refl _)
          (wsOkP_trimJs _ (collapseWsGo_wsOk w.length w (le_refl _)))
      have hstab2 : trimJs (trimJs (collapseWs w)) = trimJs (collapseWs w) :=
        trimJs_idem _
      obtain ⟨N, hN⟩ : ∃ N, trimJs (collapseWs w) = N := ⟨_, rfl⟩
      rw [hN] at hstab1 hstab2
      have hdataS : cleanText s = ⟨N⟩ := by
        rw [hcleanEq s, if_neg hs, ← hN]
        exact congrArg String.mk (hexpand s.data)
      rw [hdataS] at h1 h2 h3 h4 h5 h6 h7
      have hproj : (⟨N⟩ : String).data = N := rfl
      rw [hproj] at h1 h2 h3 h4 h5 h6 h7
      rw [hdataS] at ht
      rw [hdataS, hcleanEq ⟨N⟩, if_neg ht, hproj]
      apply congrArg String.mk
      rw [hexpand N]
      have hstripN : stripTags N = N := stripTagsGo_id N N.length h7
      rw [hrepl _ _ _ h1, hrepl _ _ _ h2, hrepl _ _ _ h3, hrepl _ _ _ h4,
        hrepl _ _ _ h5, hrepl _ _ _ h6, hstripN]
      rw [hstab1, hstab2]

/-- C8 witness: idempotence at a concrete input whose cleaned output is
entity- and tag-free. -/
theorem c8_cleanText_idem_witness :
    cleanText (cleanText "  Tom &amp; <b>Jerry</b>  ") =
      cleanText "  Tom &amp; <b>Jerry</b>  " :=
  c8_cleanText_idem "  Tom &amp; <b>Jerry</b>  " (by decide)

/-- C8 counterexample: cleaning "&amp;amp;" yields "&amp;" (the global
replacement does not rescan the replaced text), and cleaning again yields
"&" — cleanText is not idempotent on all inputs. -/
theorem c8_cleanText_idem_counterexample :
    cleanText "&amp;amp;" = "&amp;" ∧
    cleanText (cleanText "&amp;amp;") = "&" ∧
    cleanText (cleanText "&amp;amp;") ≠ cleanText "&amp;amp;" := by
  refine ⟨by decide, by decide, by decide⟩

end Dice
